import Mathlib

/-!
Shallow embedding of the smanzy_backend media/album subsystem
(internal/models, internal/services/album.go, internal/handlers/album.go,
internal/handlers/media.go, cmd/api/main.go).

The relational store is modelled as in-memory lists with GORM's soft-delete
scope made explicit (a read matches only rows whose deleted_at is NULL);
store/filesystem failures that the handlers branch on are passed in as
explicit booleans.  Go's path functions (filepath.Base, Join, Clean, Ext)
are reimplemented character-for-character on Lean strings.
-/

namespace Smanzy

/-- A role row: `roles(id, name UNIQUE)` (internal/models, seeded in main.go). -/
structure Role where
  id : Nat
  name : String
deriving Repr, DecidableEq

/-- A media row (internal/models, `Media` struct, table "media").
`deletedAt` is the gorm.DeletedAt tombstone; `typ` is the Go field `Type`. -/
structure Media where
  id : Nat
  filename : String
  storedName : String
  url : String
  typ : String
  mimeType : String
  size : Int
  userID : Nat
  createdAt : Int
  updatedAt : Int
  deletedAt : Option Int
deriving Repr, DecidableEq

/-- An album row (internal/models/album.go, `Album` struct, table "album"). -/
structure Album where
  id : Nat
  title : String
  description : String
  userID : Nat
  createdAt : Int
  updatedAt : Int
  deletedAt : Option Int
deriving Repr, DecidableEq

/-- The persisted store: album rows, media rows, role rows and the
`album_media(album_id, media_id)` many-to-many join table. -/
structure DB where
  albums : List Album
  media : List Media
  roles : List Role
  albumMedia : List (Nat × Nat)
deriving Repr, DecidableEq

/-- Modelled from the spec: the Identity (`User`) record of §3 — the model
file internal/models/user.go is not among the provided sources.  Only the
fields the media/album handlers consult are kept: the unique numeric id and
the names of the user's loaded roles. -/
structure User where
  id : Nat
  roles : List String
deriving Repr, DecidableEq

/-- Modelled from the spec: `hasRole(identity, roleName) -> bool`, a
case-sensitive exact match against the identity's currently loaded role set
(§4.3; `User.HasRole` lives in the missing internal/models/user.go). -/
def User.HasRole (u : User) (r : String) : Bool :=
  u.roles.contains r

/-! ## Go path functions (path/filepath, unix rules) -/

/-- Split a character list on the path separator.  Always returns at least
one (possibly empty) component, like splitting a string on a separator. -/
def splitSlash : List Char → List (List Char)
  | [] => [[]]
  | c :: rest =>
    match splitSlash rest with
    | [] => [[]]
    | comp :: comps =>
      if c = '/' then [] :: comp :: comps else (c :: comp) :: comps

/-- One step of Go filepath.Clean's element processing: drop empty and "."
elements; ".." pops the previous element unless there is none (kept for a
relative path, dropped at the root of a rooted one). -/
def compStep (rooted : Bool) (acc : List (List Char)) (comp : List Char) :
    List (List Char) :=
  if comp = [] ∨ comp = ['.'] then acc
  else if comp = ['.', '.'] then
    match acc with
    | c :: rest => if c = ['.', '.'] then comp :: c :: rest else rest
    | [] => if rooted then [] else [comp]
  else comp :: acc

/-- Rejoin cleaned components with the separator. -/
def joinComps : List (List Char) → List Char
  | [] => []
  | [c] => c
  | c :: rest => c ++ '/' :: joinComps rest

/-- The element pass of Go filepath.Clean: split on the separator, process
the elements left to right, rejoin. -/
def goCleanCore (rooted : Bool) (cs : List Char) : List Char :=
  joinComps (((splitSlash cs).foldl (compStep rooted) []).reverse)

/-- Go filepath.Clean on a character list (unix separator, no volumes). -/
def goCleanL (cs : List Char) : List Char :=
  if cs = [] then ['.']
  else if cs.head? = some '/' then
    (if goCleanCore true cs = [] then ['/'] else '/' :: goCleanCore true cs)
  else
    (if goCleanCore false cs = [] then ['.'] else goCleanCore false cs)

/-- Go filepath.Clean on strings. -/
def goClean (s : String) : String :=
  String.mk (goCleanL s.data)

/-- Go filepath.Join of two elements: join the non-empty elements with the
separator, then Clean the result. -/
def goJoin (a b : String) : String :=
  if a = "" then goClean b
  else if b = "" then goClean a
  else String.mk (goCleanL (a.data ++ '/' :: b.data))

/-- Go filepath.Base: empty path gives ".", trailing separators are
stripped, everything up to the final separator is dropped, and a path of
only separators gives "/". -/
def goBase (path : String) : String :=
  if path = "" then "."
  else
    let r1 := path.data.reverse.dropWhile (fun c => c = '/')
    let base := (r1.takeWhile (fun c => c ≠ '/')).reverse
    if base = [] then "/" else String.mk base

/-- Scan the reversed path for Go filepath.Ext: stop with "" at a separator
or the start, and at a dot return the suffix from that dot on. -/
def goExtRevAux (acc : List Char) : List Char → List Char
  | [] => []
  | c :: rest =>
    if c = '/' then []
    else if c = '.' then c :: acc
    else goExtRevAux (c :: acc) rest

/-- Go filepath.Ext: the suffix beginning at the final dot in the final
path element, empty if there is none. -/
def goExt (s : String) : String :=
  String.mk (goExtRevAux [] s.data.reverse)

/-- The media handlers' upload directory ("./uploads", NewMediaHandler). -/
def uploadDir : String := "./uploads"

/-! ## Store reads (GORM `First`/`Find` with the default soft-delete scope) -/

/-- `db.First(&album, albumID)`: the first album row with that id whose
tombstone is unset (GORM's default scope adds `deleted_at IS NULL`). -/
def DB.findAlbum (db : DB) (albumID : Nat) : Option Album :=
  db.albums.find? (fun a => a.id == albumID && a.deletedAt == none)

/-- `db.First(&media, mediaID)` with the default soft-delete scope. -/
def DB.findMedia (db : DB) (mediaID : Nat) : Option Media :=
  db.media.find? (fun m => m.id == mediaID && m.deletedAt == none)

/-! ## AlbumService (internal/services/album.go) -/

/-- `GetAlbumByID`: scoped primary-key read, "album not found" when the row
is absent or tombstoned. -/
def GetAlbumByID (db : DB) (albumID : Nat) : Except String Album :=
  match db.findAlbum albumID with
  | some a => .ok a
  | none => .error "album not found"

/-- `GetUserAlbums`: `Where("user_id = ?").Find`, default-scoped, so
tombstoned albums are excluded. -/
def GetUserAlbums (db : DB) (userID : Nat) : List Album :=
  db.albums.filter (fun a => a.userID == userID && a.deletedAt == none)

/-- `UpdateAlbum`: load via GetAlbumByID; an empty title is ignored while a
non-empty one replaces Title; Description is overwritten unconditionally;
`db.Save` writes the struct back by primary key (UpdatedAt auto-updates to
the current time, and the default scope keeps the write on live rows). -/
def UpdateAlbum (db : DB) (albumID : Nat) (title description : String)
    (now : Int) : Except String (Album × DB) :=
  match GetAlbumByID db albumID with
  | .error e => .error e
  | .ok album =>
    let album1 := if title ≠ "" then { album with title := title } else album
    let album2 := { album1 with description := description, updatedAt := now }
    .ok (album2,
      { db with albums := db.albums.map (fun a =>
          if a.id == album.id && a.deletedAt == none then album2 else a) })

/-- `AddMediaToAlbum`: verify the album exists ("album not found"), then the
media ("media not found"), then `Association("MediaFiles").Append`, which
inserts the join row if it is not already present. -/
def AddMediaToAlbum (db : DB) (albumID mediaID : Nat) : Except String DB :=
  match db.findAlbum albumID with
  | none => .error "album not found"
  | some _ =>
    match db.findMedia mediaID with
    | none => .error "media not found"
    | some _ =>
      if db.albumMedia.contains (albumID, mediaID) then .ok db
      else .ok { db with albumMedia := db.albumMedia ++ [(albumID, mediaID)] }

/-- `RemoveMediaFromAlbum`: verify the album exists, then
`Association("MediaFiles").Delete`, which removes the join row (a no-op
when the association is absent; the media row itself is never consulted). -/
def RemoveMediaFromAlbum (db : DB) (albumID mediaID : Nat) : Except String DB :=
  match db.findAlbum albumID with
  | none => .error "album not found"
  | some a =>
    .ok { db with albumMedia := db.albumMedia.filter (fun p =>
      !(p.1 == a.id && p.2 == mediaID)) }

/-- `DeleteAlbum`: load via GetAlbumByID, then `db.Delete(album)` — a GORM
soft delete, `UPDATE album SET deleted_at = now WHERE id = ? AND deleted_at
IS NULL`; the row is tombstoned, not removed. -/
def DeleteAlbum (db : DB) (albumID : Nat) (now : Int) : Except String DB :=
  match GetAlbumByID db albumID with
  | .error e => .error e
  | .ok album =>
    .ok { db with albums := db.albums.map (fun a =>
      if a.id == album.id && a.deletedAt == none
      then { a with deletedAt := some now } else a) }

/-- `PermanentlyDeleteAlbum`: load via GetAlbumByID, clear the media
association, then `Unscoped().Delete` — a physical `DELETE` of the row. -/
def PermanentlyDeleteAlbum (db : DB) (albumID : Nat) : Except String DB :=
  match GetAlbumByID db albumID with
  | .error e => .error e
  | .ok album =>
    .ok { db with
      albumMedia := db.albumMedia.filter (fun p => p.1 ≠ album.id),
      albums := db.albums.filter (fun a => a.id ≠ album.id) }

/-! ## Album handlers (internal/handlers/album.go)

A handler's observable outcome is its HTTP status and the store it leaves
behind.  Both mutation handlers run behind AuthMiddleware, so an
authenticated `user` sits in the request context — but neither handler ever
reads it: there is no ownership check on the album mutation paths. -/

/-- `UpdateAlbumHandler`: parse the id, bind {title, description}, call
UpdateAlbum; service error maps to 404, success to 200.  The authenticated
`user` is present in the context but never consulted. -/
def UpdateAlbumHandler (db : DB) (user : User) (albumID : Nat)
    (title description : String) (now : Int) : Nat × DB :=
  match UpdateAlbum db albumID title description now with
  | .error _ => (404, db)
  | .ok (_, db2) => (200, db2)

/-- `DeleteAlbumHandler`: parse the id and call DeleteAlbum; service error
maps to 404, success to 200.  The authenticated `user` is present in the
context but never consulted. -/
def DeleteAlbumHandler (db : DB) (user : User) (albumID : Nat) (now : Int) :
    Nat × DB :=
  match DeleteAlbum db albumID now with
  | .error _ => (404, db)
  | .ok db2 => (200, db2)

/-! ## Media handlers (internal/handlers/media.go) -/

/-- A handler's view of the world: the store plus the upload directory's
files on disk (as the list of existing paths). -/
structure MediaState where
  db : DB
  fs : List String
deriving Repr, DecidableEq

/-- The unique stored name `fmt.Sprintf("%d_%d%s", user.ID,
time.Now().UnixNano(), ext)` of UploadHandler. -/
def uploadName (userID nano : Nat) (filename : String) : String :=
  toString userID ++ "_" ++ toString nano ++ goExt filename

/-- `UploadHandler` after AuthMiddleware and form parsing: save the file
under the generated unique name, then create the media record; if the
record creation fails, remove the just-written file (`os.Remove(dst)`) and
answer 500.  `saveFails` and `createFails` stand for the two fallible
external steps (SaveUploadedFile and db.Create). -/
def UploadHandler (st : MediaState) (user : User) (filename contentType : String)
    (size : Int) (nano : Nat) (saveFails createFails : Bool) (newID : Nat)
    (now : Int) : Nat × MediaState :=
  let uniqueName := uploadName user.id nano filename
  let dst := goJoin uploadDir uniqueName
  if saveFails then (500, st)
  else
    let fs1 := dst :: st.fs
    let media : Media :=
      { id := newID, filename := filename, storedName := uniqueName,
        url := "/api/media/files/" ++ uniqueName, typ := "file",
        mimeType := contentType, size := size, userID := user.id,
        createdAt := now, updatedAt := now, deletedAt := none }
    if createFails then
      (500, { st with fs := fs1.filter (fun p => p ≠ dst) })
    else
      (201, { db := { st.db with media := st.db.media ++ [media] }, fs := fs1 })

/-- What a media read endpoint answers: an error status, a JSON body
holding a media record, or a file streamed from a path. -/
inductive MediaResp where
  | err (status : Nat)
  | okMedia (m : Media)
  | file (path : String)
deriving Repr, DecidableEq

/-- `GetMediaHandler`: scoped primary-key read, then stream the stored file;
the authenticated `user` in the context is never consulted ("any
authenticated user can download"). -/
def GetMediaHandler (st : MediaState) (user : User) (mediaID : Nat) : MediaResp :=
  match st.db.findMedia mediaID with
  | none => .err 404
  | some m => .file (goJoin uploadDir m.storedName)

/-- `GetMediaDetailsHandler`: scoped primary-key read, then return the
metadata; the authenticated `user` in the context is never consulted. -/
def GetMediaDetailsHandler (st : MediaState) (user : User) (mediaID : Nat) :
    MediaResp :=
  match st.db.findMedia mediaID with
  | none => .err 404
  | some m => .okMedia m

/-- `UpdateMediaHandler` (JSON body already bound to {filename}): load the
record, enforce `media.UserID != user.ID && !user.HasRole("admin") -> 403`
before any write, then overwrite Filename when non-empty and `db.Save`
(UpdatedAt auto-updates); `saveFails` stands for the db.Save error branch. -/
def UpdateMediaHandler (st : MediaState) (user : User) (mediaID : Nat)
    (reqFilename : String) (saveFails : Bool) (now : Int) : Nat × MediaState :=
  match st.db.findMedia mediaID with
  | none => (404, st)
  | some media =>
    if media.userID != user.id && !(user.HasRole "admin") then (403, st)
    else
      let media1 := if reqFilename ≠ "" then { media with filename := reqFilename }
                    else media
      let media2 := { media1 with updatedAt := now }
      if saveFails then (500, st)
      else
        (200, { st with db := { st.db with media := st.db.media.map (fun m =>
          if m.id == media.id && m.deletedAt == none then media2 else m) } })

/-- `DeleteMediaHandler`: load the record, enforce the owner-or-admin check
(403 before any write), then `os.Remove` the stored file — a removal
failure is only logged and execution continues — and finally `db.Delete`
the record (a soft delete, Media having a gorm.DeletedAt column); only a
failure of that database delete answers 500.  `removeFails` and
`dbDeleteFails` stand for the two fallible external steps. -/
def DeleteMediaHandler (st : MediaState) (user : User) (mediaID : Nat)
    (removeFails dbDeleteFails : Bool) (now : Int) : Nat × MediaState :=
  match st.db.findMedia mediaID with
  | none => (404, st)
  | some media =>
    if media.userID != user.id && !(user.HasRole "admin") then (403, st)
    else
      let filePath := goJoin uploadDir media.storedName
      let fs1 := if removeFails then st.fs
                 else st.fs.filter (fun p => p ≠ filePath)
      if dbDeleteFails then (500, { st with fs := fs1 })
      else
        (200, { fs := fs1, db := { st.db with media := st.db.media.map (fun m =>
          if m.id == media.id && m.deletedAt == none
          then { m with deletedAt := some now } else m) } })

/-- What ServeFileHandler answers: 400 for a bad name, 404 for a missing
file, or the file at a path. -/
inductive ServeResp where
  | badRequest
  | notFound
  | file (path : String)
deriving Repr, DecidableEq

/-- `ServeFileHandler`: reject the name with 400 unless it equals its own
filepath.Base, then join it onto the upload directory, 404 when the path
does not exist, otherwise serve it (`c.File`). -/
def ServeFileHandler (fs : List String) (name : String) : ServeResp :=
  if goBase name ≠ name then .badRequest
  else
    let filePath := goJoin uploadDir name
    if fs.contains filePath then .file filePath else .notFound

/-! ## Role seeding (cmd/api/main.go, step 5) -/

/-- `db.FirstOrCreate(&models.Role{}, models.Role{Name: name})`: find the
first role row with that name, and only when none exists insert one. -/
def firstOrCreateRole (roles : List Role) (name : String) (newID : Nat) :
    List Role :=
  if roles.any (fun r => r.name == name) then roles
  else roles ++ [{ id := newID, name := name }]

/-- The seeding step main.go runs before the router starts serving: ensure
the baseline roles "user" and "admin" exist, in that order. -/
def seedBaselineRoles (roles : List Role) (idUser idAdmin : Nat) : List Role :=
  firstOrCreateRole (firstOrCreateRole roles "user" idUser) "admin" idAdmin

/-- How many role rows carry a given name. -/
def countRole (roles : List Role) (name : String) : Nat :=
  (roles.filter (fun r => r.name == name)).length

/-! ## Sample rows used by the concrete witnesses -/

/-- A live album owned by user 1. -/
def exAlbum : Album :=
  { id := 1, title := "holiday", description := "summer", userID := 1,
    createdAt := 0, updatedAt := 0, deletedAt := none }

/-- A live media row owned by user 1. -/
def exMedia : Media :=
  { id := 1, filename := "pic.png", storedName := "1_7.png",
    url := "/api/media/files/1_7.png", typ := "file", mimeType := "image/png",
    size := 3, userID := 1, createdAt := 0, updatedAt := 0, deletedAt := none }

/-- A store holding exactly that album and media row. -/
def exDB : DB :=
  { albums := [exAlbum], media := [exMedia], roles := [], albumMedia := [] }

/-- The store together with the stored file on disk. -/
def exSt : MediaState := { db := exDB, fs := ["uploads/1_7.png"] }

/-- The owner of both sample rows. -/
def exOwner : User := { id := 1, roles := ["user"] }

/-- An authenticated user who owns nothing and is not an admin. -/
def exOther : User := { id := 2, roles := ["user"] }

/-! ## Claims -/

/-- C1: the claim says an album mutation by an authenticated requester who
is neither the album's owner nor an admin is rejected with 403 and leaves
the album unchanged.  The code has no such check: UpdateAlbumHandler and
DeleteAlbumHandler never consult the authenticated user, so a non-owner
non-admin requester gets 200 and the stored album is mutated. -/
theorem album_mutation_lacks_ownership_check :
    exAlbum.userID ≠ exOther.id ∧ exOther.HasRole "admin" = false ∧
    (UpdateAlbumHandler exDB exOther 1 "hacked" "gone" 5).1 = 200 ∧
    (UpdateAlbumHandler exDB exOther 1 "hacked" "gone" 5).2 ≠ exDB ∧
    (DeleteAlbumHandler exDB exOther 1 5).1 = 200 ∧
    (DeleteAlbumHandler exDB exOther 1 5).2 ≠ exDB := by
  decide

/-- C2: a media mutation (update or delete) on an existing record by an
authenticated requester whose id differs from media.UserID and who does not
hold the "admin" role answers 403 with the whole state — the media table
and the file system — exactly as it was. -/
theorem media_mutation_nonowner_forbidden (st : MediaState) (u : User)
    (mediaID : Nat) (m : Media) (reqFilename : String)
    (saveFails removeFails dbDeleteFails : Bool) (now : Int)
    (hfind : st.db.findMedia mediaID = some m)
    (hown : m.userID ≠ u.id)
    (hadm : u.HasRole "admin" = false) :
    UpdateMediaHandler st u mediaID reqFilename saveFails now = (403, st) ∧
    DeleteMediaHandler st u mediaID removeFails dbDeleteFails now = (403, st) := by
  unfold UpdateMediaHandler DeleteMediaHandler
  rw [hfind]
  simp [hadm, bne_iff_ne, hown]

/-- C2 witness: the non-owner non-admin exOther mutating exMedia. -/
theorem media_mutation_nonowner_forbidden_witness :
    UpdateMediaHandler exSt exOther 1 "z" false 9 = (403, exSt) ∧
    DeleteMediaHandler exSt exOther 1 false false 9 = (403, exSt) :=
  media_mutation_nonowner_forbidden exSt exOther 1 exMedia "z" false false
    false 9 rfl (by decide) rfl

/-- C4: in UploadHandler, when the file has been saved and the creation of
the media record then fails, the handler removes the just-written file and
answers 500: nothing at all — disk or store — has changed. -/
theorem upload_cleanup_on_create_failure (st : MediaState) (u : User)
    (filename contentType : String) (size : Int) (nano newID : Nat) (now : Int)
    (hfree : goJoin uploadDir (uploadName u.id nano filename) ∉ st.fs) :
    UploadHandler st u filename contentType size nano false true newID now =
      (500, st) := by
  unfold UploadHandler
  simp only [Bool.false_eq_true, if_false, if_true, Prod.mk.injEq, true_and]
  have hfs : (goJoin uploadDir (uploadName u.id nano filename) :: st.fs).filter
      (fun p => p ≠ goJoin uploadDir (uploadName u.id nano filename)) = st.fs := by
    have h1 : (goJoin uploadDir (uploadName u.id nano filename) :: st.fs).filter
        (fun p => p ≠ goJoin uploadDir (uploadName u.id nano filename)) =
        st.fs.filter
          (fun p => p ≠ goJoin uploadDir (uploadName u.id nano filename)) := by
      simp
    rw [h1]
    exact List.filter_eq_self.mpr (fun a ha => by
      simp only [ne_eq, decide_eq_true_eq]
      intro h
      exact hfree (h ▸ ha))
  rw [hfs]

/-- C4 witness: a concrete failed upload leaves the state untouched. -/
theorem upload_cleanup_on_create_failure_witness :
    UploadHandler exSt exOwner "pic.png" "image/png" 3 42 false true 7 9 =
      (500, exSt) :=
  upload_cleanup_on_create_failure exSt exOwner "pic.png" "image/png" 3 42 7 9
    (by decide)

/-- C5: in DeleteMediaHandler, for an authorized (owner) requester a failed
file removal is only logged: the record is still soft-deleted and the
handler answers 200 with the file system untouched; only a failing
database delete answers 500. -/
theorem delete_media_fs_failure_best_effort (st : MediaState) (u : User)
    (mediaID : Nat) (m : Media) (now : Int)
    (hfind : st.db.findMedia mediaID = some m)
    (hown : m.userID = u.id) :
    DeleteMediaHandler st u mediaID true false now =
      (200, { st with db := { st.db with media := st.db.media.map (fun x =>
        if x.id == m.id && x.deletedAt == none
        then { x with deletedAt := some now } else x) } }) ∧
    (∀ removeFails : Bool,
      (DeleteMediaHandler st u mediaID removeFails true now).1 = 500) := by
  unfold DeleteMediaHandler
  rw [hfind]
  constructor
  · simp [hown]
  · intro removeFails
    simp [hown]

/-- C5 witness: the owner deletes exMedia while the file removal fails. -/
theorem delete_media_fs_failure_best_effort_witness :
    (DeleteMediaHandler exSt exOwner 1 true true 9).1 = 500 :=
  (delete_media_fs_failure_best_effort exSt exOwner 1 exMedia 9 rfl rfl).2 true

/-- C7: the single-media read handlers answer the same response for every
authenticated requester — their result does not depend on the requester's
identity — and on an existing record they succeed (stream the stored file,
return the metadata) with no ownership check. -/
theorem media_read_not_owner_restricted (st : MediaState) (mediaID : Nat)
    (m : Media) (u : User)
    (hfind : st.db.findMedia mediaID = some m) :
    (∀ u2 : User,
      GetMediaHandler st u mediaID = GetMediaHandler st u2 mediaID ∧
      GetMediaDetailsHandler st u mediaID = GetMediaDetailsHandler st u2 mediaID) ∧
    GetMediaHandler st u mediaID = .file (goJoin uploadDir m.storedName) ∧
    GetMediaDetailsHandler st u mediaID = .okMedia m := by
  unfold GetMediaHandler GetMediaDetailsHandler
  rw [hfind]
  simp

/-- C7 witness: a non-owner reads exMedia's metadata and file. -/
theorem media_read_not_owner_restricted_witness :
    GetMediaHandler exSt exOther 1 = .file (goJoin uploadDir exMedia.storedName) ∧
    GetMediaDetailsHandler exSt exOther 1 = .okMedia exMedia :=
  (media_read_not_owner_restricted exSt 1 exMedia exOther rfl).2

/-! ### Seeding lemmas (C6) -/

lemma countRole_eq_zero_iff (roles : List Role) (n : String) :
    countRole roles n = 0 ↔ roles.any (fun r => r.name == n) = false := by
  rw [countRole, List.length_eq_zero, List.filter_eq_nil_iff, List.any_eq_false]

lemma firstOrCreateRole_of_found (roles : List Role) (n : String) (i : Nat)
    (h : roles.any (fun r => r.name == n) = true) :
    firstOrCreateRole roles n i = roles := by
  simp [firstOrCreateRole, h]

lemma firstOrCreateRole_any_self (roles : List Role) (n : String) (i : Nat) :
    (firstOrCreateRole roles n i).any (fun r => r.name == n) = true := by
  by_cases h : roles.any (fun r => r.name == n) = true
  · simp [firstOrCreateRole, h]
  · simp only [firstOrCreateRole, h, if_false, List.any_append]
    simp

lemma firstOrCreateRole_any_mono (roles : List Role) (n m : String) (i : Nat)
    (h : roles.any (fun r => r.name == m) = true) :
    (firstOrCreateRole roles n i).any (fun r => r.name == m) = true := by
  unfold firstOrCreateRole
  split
  · exact h
  · simp [List.any_append, h]

lemma firstOrCreateRole_count_self (roles : List Role) (n : String) (i : Nat) :
    countRole (firstOrCreateRole roles n i) n = max (countRole roles n) 1 := by
  by_cases h : roles.any (fun r => r.name == n) = true
  · rw [firstOrCreateRole_of_found roles n i h]
    have hne : countRole roles n ≠ 0 := by
      rw [Ne, countRole_eq_zero_iff, h]
      simp
    exact (Nat.max_eq_left (Nat.one_le_iff_ne_zero.mpr hne)).symm
  · have h0 : List.filter (fun r => r.name == n) roles = [] := by
      have hc := (countRole_eq_zero_iff roles n).mpr (by simpa using h)
      rw [countRole, List.length_eq_zero] at hc
      exact hc
    have hbranch : firstOrCreateRole roles n i =
        roles ++ [{ id := i, name := n }] := by
      unfold firstOrCreateRole
      rw [if_neg h]
    rw [hbranch, countRole, List.filter_append, h0, countRole, h0]
    simp

lemma firstOrCreateRole_count_other (roles : List Role) (n m : String) (i : Nat)
    (hnm : n ≠ m) :
    countRole (firstOrCreateRole roles n i) m = countRole roles m := by
  unfold firstOrCreateRole
  split
  · rfl
  · simp [countRole, List.filter_append, hnm]

/-- C6: the startup seeding of the two baseline roles (main.go step 5, run
before the router starts serving) has first-or-create semantics: one run
brings each of "user" and "admin" to exactly one row when absent and adds
nothing when present, and a second run — hence any number of runs — changes
nothing at all. -/
theorem seed_roles_first_or_create_idempotent (roles : List Role)
    (i j i2 j2 : Nat) :
    seedBaselineRoles (seedBaselineRoles roles i j) i2 j2 =
      seedBaselineRoles roles i j ∧
    countRole (seedBaselineRoles roles i j) "user" =
      max (countRole roles "user") 1 ∧
    countRole (seedBaselineRoles roles i j) "admin" =
      max (countRole roles "admin") 1 := by
  refine ⟨?_, ?_, ?_⟩
  · show seedBaselineRoles _ i2 j2 = _
    unfold seedBaselineRoles
    rw [firstOrCreateRole_of_found _ "user" i2
        (firstOrCreateRole_any_mono _ "admin" "user" j
          (firstOrCreateRole_any_self roles "user" i)),
      firstOrCreateRole_of_found _ "admin" j2
        (firstOrCreateRole_any_self _ "admin" j)]
  · unfold seedBaselineRoles
    rw [firstOrCreateRole_count_other _ "admin" "user" j (by decide),
      firstOrCreateRole_count_self]
  · unfold seedBaselineRoles
    rw [firstOrCreateRole_count_self,
      firstOrCreateRole_count_other _ "user" "admin" i (by decide)]

/-! ### Association lemmas (C9) -/

/-- C9: removing a media id that an existing album does not hold — whether
or not the media row itself exists — succeeds and leaves the store exactly
as it was, and removing the same media twice equals removing it once;
adding, by contrast, rejects a missing media id with "media not found" and
a missing album id with "album not found" (and an error path returns no
modified store at all). -/
lemma removeMedia_filter_eq (db : DB) (aid mid : Nat) (album : Album)
    (h1 : db.findAlbum aid = some album) :
    RemoveMediaFromAlbum db aid mid =
      .ok { db with albumMedia :=
        db.albumMedia.filter (fun p => !(p.1 == album.id && p.2 == mid)) } := by
  unfold RemoveMediaFromAlbum
  rw [h1]

theorem album_media_association_ops (db : DB) (aid aidMissing mid midMissing : Nat)
    (album : Album)
    (h1 : db.findAlbum aid = some album)
    (h2 : db.albumMedia.contains (aid, mid) = false)
    (h3 : db.findMedia midMissing = none)
    (h4 : db.findAlbum aidMissing = none) :
    RemoveMediaFromAlbum db aid mid = .ok db ∧
    (∀ mid2 db1, RemoveMediaFromAlbum db aid mid2 = .ok db1 →
        RemoveMediaFromAlbum db1 aid mid2 = .ok db1) ∧
    AddMediaToAlbum db aid midMissing = .error "media not found" ∧
    AddMediaToAlbum db aidMissing mid = .error "album not found" := by
  have hid : album.id = aid := by
    have := List.find?_some h1
    simp only [Bool.and_eq_true, beq_iff_eq] at this
    exact this.1
  have hmem : (aid, mid) ∉ db.albumMedia := by simpa using h2
  have hfil : db.albumMedia.filter
      (fun p => !(p.1 == album.id && p.2 == mid)) = db.albumMedia := by
    refine List.filter_eq_self.mpr (fun p hp => ?_)
    simp only [hid, Bool.not_eq_true', Bool.and_eq_false_iff, beq_iff_eq,
      Bool.not_eq_true, beq_eq_false_iff_ne, ne_eq]
    by_contra hc
    push_neg at hc
    exact hmem (by rw [← hc.1, ← hc.2]; exact hp)
  refine ⟨?_, ?_, ?_, ?_⟩
  · rw [removeMedia_filter_eq db aid mid album h1, hfil]
  · intro mid2 db1 h
    rw [removeMedia_filter_eq db aid mid2 album h1] at h
    injection h with h
    subst h
    have h1x : DB.findAlbum { db with albumMedia := db.albumMedia.filter (fun p => !(p.1 == album.id && p.2 == mid2)) } aid
        = some album := h1
    rw [removeMedia_filter_eq _ aid mid2 album h1x]
    congr 1
    rw [DB.mk.injEq]
    refine ⟨rfl, rfl, rfl, ?_⟩
    exact List.filter_eq_self.mpr (fun p hp => (List.mem_filter.mp hp).2)
  · unfold AddMediaToAlbum
    rw [h1, h3]
  · unfold AddMediaToAlbum
    rw [h4]

/-- An album for the association witness — album 1 holding media 7. -/
def exAlbum9 : Album :=
  { id := 1, title := "mixtape", description := "", userID := 1,
    createdAt := 0, updatedAt := 0, deletedAt := none }

/-- The media row held by exAlbum9. -/
def exMedia9 : Media :=
  { id := 7, filename := "song.mp3", storedName := "1_8.mp3",
    url := "/api/media/files/1_8.mp3", typ := "file", mimeType := "audio/mpeg",
    size := 5, userID := 1, createdAt := 0, updatedAt := 0, deletedAt := none }

/-- A store where album 1 holds media 7, and media 9 and album 3 are absent. -/
def exDB9 : DB :=
  { albums := [exAlbum9], media := [exMedia9], roles := [],
    albumMedia := [(1, 7)] }

/-- C9 witness: removing the unassociated media 9 from album 1 is a no-op
success, while the add paths reject the missing media and album ids. -/
theorem album_media_association_ops_witness :
    RemoveMediaFromAlbum exDB9 1 9 = .ok exDB9 ∧
    AddMediaToAlbum exDB9 1 9 = .error "media not found" ∧
    AddMediaToAlbum exDB9 3 9 = .error "album not found" :=
  have h := album_media_association_ops exDB9 1 3 9 9 exAlbum9
    (by decide) (by decide) (by decide) (by decide)
  ⟨h.1, h.2.2.1, h.2.2.2⟩

/-- C10: on an existing album, UpdateAlbum keeps the stored Title when the
given title is empty and replaces it otherwise, overwrites Description
unconditionally (even with the empty string), touches the update timestamp,
and modifies nothing else — not the album's other fields (the returned row
is the loaded row with exactly title, description and updatedAt changed)
and not any other table or row of the store. -/
theorem update_album_title_description_frame (db : DB) (aid : Nat)
    (title description : String) (now : Int) (album : Album)
    (hfind : db.findAlbum aid = some album) :
    ∃ db2,
      UpdateAlbum db aid title description now =
        .ok ({ album with
                 title := if title = "" then album.title else title,
                 description := description, updatedAt := now }, db2) ∧
      db2.media = db.media ∧ db2.roles = db.roles ∧
      db2.albumMedia = db.albumMedia ∧
      (∀ a ∈ db.albums, a.id ≠ album.id → a ∈ db2.albums) ∧
      (∀ a ∈ db2.albums, a ∈ db.albums ∨
        a = { album with
                title := if title = "" then album.title else title,
                description := description, updatedAt := now }) := by
  have halb : ({ (if title ≠ "" then { album with title := title } else album) with
      description := description, updatedAt := now } : Album)
      = { album with
            title := if title = "" then album.title else title,
            description := description, updatedAt := now } := by
    by_cases ht : title = "" <;> simp [ht]
  refine ⟨{ db with albums := db.albums.map (fun a =>
      if a.id == album.id && a.deletedAt == none
      then { album with
               title := if title = "" then album.title else title,
               description := description, updatedAt := now }
      else a) }, ?_, rfl, rfl, rfl, ?_, ?_⟩
  · unfold UpdateAlbum GetAlbumByID
    rw [hfind, ← halb]
  · intro a ha hne
    refine List.mem_map.mpr ⟨a, ha, ?_⟩
    have : (a.id == album.id) = false := by
      simp only [beq_eq_false_iff_ne, ne_eq]
      exact fun e => hne e
    rw [this]
    simp
  · intro a ha
    obtain ⟨b, hb, hfb⟩ := List.mem_map.mp ha
    by_cases hcond : (b.id == album.id && b.deletedAt == none) = true
    · right
      rw [← hfb, hcond]
      simp
    · left
      rw [← hfb, Bool.not_eq_true] at *
      rw [hcond] at hfb ⊢
      simpa using hb

/-- C10 witness: updating exAlbum with an empty title and an empty
description keeps the title, clears the description, and frames the rest. -/
theorem update_album_title_description_frame_witness :
    ∃ db2,
      UpdateAlbum exDB 1 "" "" 9 =
        .ok ({ exAlbum with
                 title := if "" = "" then exAlbum.title else "",
                 description := "", updatedAt := 9 }, db2) ∧
      db2.media = exDB.media ∧ db2.roles = exDB.roles ∧
      db2.albumMedia = exDB.albumMedia ∧
      (∀ a ∈ exDB.albums, a.id ≠ exAlbum.id → a ∈ db2.albums) ∧
      (∀ a ∈ db2.albums, a ∈ exDB.albums ∨
        a = { exAlbum with
                title := if "" = "" then exAlbum.title else "",
                description := "", updatedAt := 9 }) :=
  update_album_title_description_frame exDB 1 "" "" 9 exAlbum rfl

/-- C3: deleting an existing album tombstones it: the row stays in the
albums table carrying the deletion timestamp, after which the default
scoped reads exclude it — GetAlbumByID answers "album not found" and the
album no longer appears in GetUserAlbums — while PermanentlyDeleteAlbum is
the distinct operation that physically removes the row. -/
theorem delete_album_soft_tombstone (db : DB) (aid : Nat) (album : Album)
    (now : Int)
    (hfind : db.findAlbum aid = some album) :
    album.id = aid ∧
    ∃ db2, DeleteAlbum db aid now = .ok db2 ∧
      { album with deletedAt := some now } ∈ db2.albums ∧
      GetAlbumByID db2 aid = .error "album not found" ∧
      (∀ a ∈ GetUserAlbums db2 album.userID, a.id ≠ aid) ∧
      ∃ db3, PermanentlyDeleteAlbum db aid = .ok db3 ∧
        ∀ a ∈ db3.albums, a.id ≠ aid := by
  have hprop := List.find?_some hfind
  simp only [Bool.and_eq_true, beq_iff_eq] at hprop
  have hid : album.id = aid := hprop.1
  have hdel : album.deletedAt = none := by
    have := hprop.2
    simpa using this
  have hmem : album ∈ db.albums := List.mem_of_find?_eq_some hfind
  refine ⟨hid, { db with albums := db.albums.map (fun a =>
      if a.id == album.id && a.deletedAt == none
      then { a with deletedAt := some now } else a) }, ?_, ?_, ?_, ?_, ?_⟩
  · unfold DeleteAlbum GetAlbumByID
    rw [hfind]
  · refine List.mem_map.mpr ⟨album, hmem, ?_⟩
    rw [show (album.id == album.id && album.deletedAt == none) = true by
      simp [hdel]]
    simp
  · unfold GetAlbumByID DB.findAlbum
    rw [show (List.find? (fun a => a.id == aid && a.deletedAt == none)
        (List.map (fun a => if a.id == album.id && a.deletedAt == none
          then { a with deletedAt := some now } else a) db.albums)) = none
        from ?_]
    rw [List.find?_eq_none]
    intro x hx
    obtain ⟨b, hb, hfb⟩ := List.mem_map.mp hx
    by_cases hcond : (b.id == album.id && b.deletedAt == none) = true
    · rw [hcond] at hfb
      simp only [if_true] at hfb
      rw [← hfb]
      simp
    · rw [Bool.not_eq_true] at hcond
      rw [hcond] at hfb
      simp only [Bool.false_eq_true, if_false] at hfb
      rw [← hfb]
      simp only [Bool.and_eq_true, beq_iff_eq, not_and]
      intro hbid
      rw [hid] at hcond
      simp only [Bool.and_eq_false_iff, beq_eq_false_iff_ne, ne_eq] at hcond
      rcases hcond with hc | hc
      · exact absurd hbid hc
      · intro hnone
        rw [hnone] at hc
        simp at hc
  · intro a ha
    rw [GetUserAlbums] at ha
    have hmem2 := List.mem_filter.mp ha
    obtain ⟨b, hb, hfb⟩ := List.mem_map.mp hmem2.1
    have hlive : (a.deletedAt == none) = true := by
      have := hmem2.2
      simp only [Bool.and_eq_true] at this
      exact this.2
    by_cases hcond : (b.id == album.id && b.deletedAt == none) = true
    · rw [hcond] at hfb
      simp only [if_true] at hfb
      rw [← hfb] at hlive
      simp at hlive
    · rw [Bool.not_eq_true] at hcond
      rw [hcond] at hfb
      simp only [Bool.false_eq_true, if_false] at hfb
      rw [← hfb]
      intro hbid
      rw [hid] at hcond
      simp only [Bool.and_eq_false_iff, beq_eq_false_iff_ne, ne_eq] at hcond
      rcases hcond with hc | hc
      · exact absurd hbid hc
      · rw [← hfb] at hlive
        simp only [beq_iff_eq] at hlive
        rw [hlive] at hc
        simp at hc
  · refine ⟨{ db with
        albumMedia := db.albumMedia.filter (fun p => p.1 ≠ album.id),
        albums := db.albums.filter (fun a => a.id ≠ album.id) }, ?_, ?_⟩
    · unfold PermanentlyDeleteAlbum GetAlbumByID
      rw [hfind]
    · intro a ha
      have := (List.mem_filter.mp ha).2
      simp only [ne_eq, decide_eq_true_eq] at this
      rw [← hid]
      exact this

/-- C3 witness: soft-deleting exAlbum from exDB. -/
theorem delete_album_soft_tombstone_witness :
    exAlbum.id = 1 ∧
    ∃ db2, DeleteAlbum exDB 1 9 = .ok db2 ∧
      { exAlbum with deletedAt := some 9 } ∈ db2.albums ∧
      GetAlbumByID db2 1 = .error "album not found" ∧
      (∀ a ∈ GetUserAlbums db2 exAlbum.userID, a.id ≠ 1) ∧
      ∃ db3, PermanentlyDeleteAlbum exDB 1 = .ok db3 ∧
        ∀ a ∈ db3.albums, a.id ≠ 1 :=
  delete_album_soft_tombstone exDB 1 exAlbum 9 rfl

/-! ### Path lemmas (C8) -/

lemma splitSlash_ne_nil (cs : List Char) : splitSlash cs ≠ [] := by
  cases cs with
  | nil => simp [splitSlash]
  | cons c rest =>
    simp only [splitSlash]
    rcases h : splitSlash rest with _ | ⟨a, as⟩
    · simp
    · by_cases hc : c = '/' <;> simp [hc]

lemma splitSlash_noSlash (xs : List Char) (h : ∀ c ∈ xs, c ≠ '/') :
    splitSlash xs = [xs] := by
  induction xs with
  | nil => rfl
  | cons c rest ih =>
    have hc : c ≠ '/' := h c (List.mem_cons_self c rest)
    have hr := ih (fun d hd => h d (List.mem_cons_of_mem c hd))
    simp only [splitSlash, hr, hc, if_false]

lemma splitSlash_append (xs ys : List Char) (h : ∀ c ∈ xs, c ≠ '/') :
    splitSlash (xs ++ '/' :: ys) = xs :: splitSlash ys := by
  induction xs with
  | nil =>
    simp only [List.nil_append, splitSlash]
    rcases hy : splitSlash ys with _ | ⟨a, as⟩
    · exact absurd hy (splitSlash_ne_nil ys)
    · simp
  | cons c rest ih =>
    have hc : c ≠ '/' := h c (List.mem_cons_self c rest)
    have hr := ih (fun d hd => h d (List.mem_cons_of_mem c hd))
    simp only [List.cons_append, splitSlash, List.append_eq, hr, hc, if_false]

/-- A name that survives the base-name guard and is not the bare root is
nonempty and separator-free. -/
lemma goBase_eq_self_no_slash (name : String) (hb : goBase name = name)
    (hroot : name ≠ "/") : name ≠ "" ∧ ∀ c ∈ name.data, c ≠ '/' := by
  have h0 : name ≠ "" := by
    intro h
    rw [h] at hb
    exact absurd hb (by decide)
  refine ⟨h0, ?_⟩
  have hb2 : (if name = "" then ("." : String) else (if ((name.data.reverse.dropWhile (fun c => c = '/')).takeWhile (fun c => c ≠ '/')).reverse = ([] : List Char) then ("/" : String) else String.mk ((name.data.reverse.dropWhile (fun c => c = '/')).takeWhile (fun c => c ≠ '/')).reverse)) = name := hb
  rw [if_neg h0] at hb2
  by_cases hbase : ((name.data.reverse.dropWhile (fun c => c = '/')).takeWhile (fun c => c ≠ '/')).reverse = ([] : List Char)
  · rw [if_pos hbase] at hb2
    exact absurd hb2.symm hroot
  · rw [if_neg hbase] at hb2
    have hdata : name.data = ((name.data.reverse.dropWhile (fun c => c = '/')).takeWhile (fun c => c ≠ '/')).reverse :=
      (congrArg String.data hb2).symm
    intro c hc
    rw [hdata] at hc
    have hc2 := List.mem_reverse.mp hc
    have := List.mem_takeWhile_imp hc2
    simpa using this

/-- Joining a nonempty separator-free name other than "." and ".." onto the
upload directory lands directly inside it. -/
lemma goJoin_uploadDir_eq (name : String) (h0 : name ≠ "")
    (hs : ∀ c ∈ name.data, c ≠ '/')
    (h1 : name ≠ ".") (h2 : name ≠ "..") :
    goJoin uploadDir name = "uploads/" ++ name := by
  obtain ⟨nd⟩ := name
  have hnd0 : nd ≠ [] := fun h => h0 (by rw [h])
  have hnd1 : nd ≠ ['.'] := fun h => h1 (by rw [h])
  have hnd2 : nd ≠ ['.', '.'] := fun h => h2 (by rw [h])
  have hsplit : splitSlash (uploadDir.data ++ '/' :: nd)
      = [['.'], ['u','p','l','o','a','d','s'], nd] := by
    rw [show uploadDir.data ++ '/' :: nd
        = ['.'] ++ '/' :: (['u','p','l','o','a','d','s'] ++ '/' :: nd) from rfl]
    rw [splitSlash_append ['.'] _ (by decide)]
    rw [splitSlash_append ['u','p','l','o','a','d','s'] _ (by decide)]
    rw [splitSlash_noSlash nd hs]
  have hcore : goCleanCore false (uploadDir.data ++ '/' :: nd)
      = ['u','p','l','o','a','d','s'] ++ '/' :: nd := by
    unfold goCleanCore
    rw [hsplit]
    simp only [List.foldl_cons, List.foldl_nil]
    rw [show compStep false [] ['.'] = [] from rfl]
    rw [show compStep false [] ['u','p','l','o','a','d','s']
        = [['u','p','l','o','a','d','s']] from rfl]
    have hstep : compStep false [['u','p','l','o','a','d','s']] nd
        = [nd, ['u','p','l','o','a','d','s']] := by
      unfold compStep
      rw [if_neg (fun h => h.elim hnd0 hnd1), if_neg hnd2]
    rw [hstep]
    simp [joinComps]
  show goJoin uploadDir (String.mk nd) = "uploads/" ++ String.mk nd
  unfold goJoin
  rw [if_neg (by decide : ¬(uploadDir = "")),
    if_neg (fun h => hnd0 (congrArg String.data h))]
  show String.mk (goCleanL (uploadDir.data ++ '/' :: nd)) = _
  unfold goCleanL
  rw [if_neg (by simp : ¬(uploadDir.data ++ '/' :: nd = []))]
  rw [if_neg (by simp [uploadDir] : ¬((uploadDir.data ++ '/' :: nd).head? = some '/'))]
  rw [hcore]
  rw [if_neg (by simp : ¬((['u','p','l','o','a','d','s'] ++ '/' :: nd : List Char) = []))]
  show String.mk (['u','p','l','o','a','d','s'] ++ '/' :: nd)
      = String.mk ("uploads/".data ++ nd)
  rw [show ("uploads/".data : List Char) = ['u','p','l','o','a','d','s','/'] from rfl]
  simp

/-- C8 (amended): a name that differs from its own filepath.Base is
rejected with 400 and no file is read; every served path is the join of the
upload directory and the guard-surviving name, and for every such name
other than the self-base specials ".", ".." and "/" that path lies directly
inside the upload directory ("uploads/" ++ name). -/
theorem serve_file_base_name_guard (fs : List String) (name : String) :
    (goBase name ≠ name → ServeFileHandler fs name = .badRequest) ∧
    (∀ p, ServeFileHandler fs name = .file p →
      p = goJoin uploadDir name ∧ fs.contains p = true ∧
      (name ≠ "." → name ≠ ".." → name ≠ "/" → p = "uploads/" ++ name)) := by
  constructor
  · intro h
    unfold ServeFileHandler
    rw [if_pos h]
  · intro p hp
    unfold ServeFileHandler at hp
    by_cases hb : goBase name = name
    · rw [if_neg (not_not_intro hb)] at hp
      by_cases hc : fs.contains (goJoin uploadDir name) = true
      · rw [if_pos hc] at hp
        have hpe : goJoin uploadDir name = p := by
          injection hp
        refine ⟨hpe.symm, hpe ▸ hc, ?_⟩
        intro h1 h2 h3
        rw [← hpe]
        obtain ⟨h0, hs⟩ := goBase_eq_self_no_slash name hb h3
        exact goJoin_uploadDir_eq name h0 hs h1 h2
      · rw [if_neg hc] at hp
        exact absurd hp (by simp)
    · rw [if_pos hb] at hp
      exact absurd hp (by simp)

/-- C8 witness: a traversal name is rejected, and a served plain name
resolves directly inside the upload directory. -/
theorem serve_file_base_name_guard_witness :
    ServeFileHandler ["uploads/a.png"] "../a.png" = .badRequest ∧
    ("uploads/a.png" : String) = "uploads/" ++ "a.png" :=
  ⟨(serve_file_base_name_guard ["uploads/a.png"] "../a.png").1 (by decide),
   ((serve_file_base_name_guard ["uploads/a.png"] "a.png").2 "uploads/a.png"
       (by decide)).2.2 (by decide) (by decide) (by decide)⟩

/-- C8 counterexample: the traversal component ".." equals its own
filepath.Base, so it passes the guard instead of drawing 400, and the
handler then serves filepath.Join("./uploads", "..") = "." — the parent of
the upload directory, not a path inside it. -/
theorem serve_file_dotdot_escape :
    goBase ".." = ".." ∧
    ServeFileHandler ["."] ".." = .file "." ∧
    goJoin uploadDir ".." = "." ∧
    ("uploads/").isPrefixOf "." = false ∧ ("." : String) ≠ "uploads" := by
  decide

end Smanzy
